import Mathlib

/-
Verification of the OpenDeck document-to-flashcard pipeline.

Shallow embedding of the backend services under `app/services/`:
  * `ai/validation.py`         — `parse_flashcard_response` (Response Validator)
  * `ai/base_provider.py`      — `FlashcardData.__post_init__`
  * `ai/ollama_provider.py`    — `_chunk_document`, `_generate_with_chunking`,
                                  `_generate_single` retry behaviour
  * `ai/openai_provider.py`    — `_generate_with_retry` retry behaviour
  * `document_extractor.py`    — `_extract_pdf`
  * `document_processor.py`    — `DocumentProcessorService.process_documents`

Python strings are modelled as `List Char`; `str.strip` / `str.lower` /
the substring test `a in b` are modelled characterwise.  Fallible Python
code is modelled with `Option` / `Except`.  External effects (HTTP
transport, the database repositories, pdfplumber page extraction) enter
as explicit oracle parameters; everything else is translated line by
line from the source.
-/

deriving instance DecidableEq for Except

namespace OpenDeck

/-- Python string: a list of characters. -/
abbrev PyStr := List Char

/-- Python `str.strip()`: drop whitespace from both ends. -/
def pstrip (s : PyStr) : PyStr :=
  (s.dropWhile Char.isWhitespace).rdropWhile Char.isWhitespace

/- String-level facts about `pstrip`, used throughout the validator proofs. -/

theorem pstrip_nil : pstrip [] = [] := rfl

theorem dropWhile_eq_self_of_pstrip_eq {s : PyStr} (h : pstrip s = s) :
    s.dropWhile Char.isWhitespace = s := by
  have h1 : (s.dropWhile Char.isWhitespace).length ≤ s.length :=
    (List.dropWhile_suffix _).length_le
  have h2 : (pstrip s).length ≤ (s.dropWhile Char.isWhitespace).length :=
    (List.rdropWhile_prefix _ _).length_le
  have h3 := congrArg List.length h
  exact (List.dropWhile_suffix _).eq_of_length (by omega)

theorem rdropWhile_eq_self_of_pstrip_eq {s : PyStr} (h : pstrip s = s) :
    s.rdropWhile Char.isWhitespace = s := by
  have hd := dropWhile_eq_self_of_pstrip_eq h
  calc s.rdropWhile Char.isWhitespace
      = (s.dropWhile Char.isWhitespace).rdropWhile Char.isWhitespace := by rw [hd]
    _ = s := h

theorem ne_nil_of_pstrip_ne_nil {s : PyStr} (h : pstrip s ≠ []) : s ≠ [] := by
  intro hs; exact h (by simp [hs, pstrip_nil])

theorem dropWhile_pstrip_eq (s : PyStr) :
    (pstrip s).dropWhile Char.isWhitespace = pstrip s := by
  rw [List.dropWhile_eq_self_iff]
  intro hl
  have hpre : pstrip s <+: s.dropWhile Char.isWhitespace := List.rdropWhile_prefix _ _
  have hlen : 0 < (s.dropWhile Char.isWhitespace).length := by
    have := hpre.length_le; omega
  have hfix : (s.dropWhile Char.isWhitespace).dropWhile Char.isWhitespace
      = s.dropWhile Char.isWhitespace := List.dropWhile_idempotent _ _
  have hhead := (List.dropWhile_eq_self_iff.mp hfix) hlen
  have hget : (pstrip s).get ⟨0, hl⟩ = (s.dropWhile Char.isWhitespace).get ⟨0, hlen⟩ := by
    simp only [List.get_eq_getElem]
    exact hpre.getElem hl
  rw [hget]
  exact hhead

theorem pstrip_idem (s : PyStr) : pstrip (pstrip s) = pstrip s := by
  show ((pstrip s).dropWhile Char.isWhitespace).rdropWhile Char.isWhitespace = pstrip s
  rw [dropWhile_pstrip_eq]
  show ((s.dropWhile Char.isWhitespace).rdropWhile Char.isWhitespace).rdropWhile
      Char.isWhitespace = pstrip s
  exact List.rdropWhile_idempotent _ _

theorem dropWhile_append_eq_self {a : PyStr} (r : PyStr)
    (ha : a.dropWhile Char.isWhitespace = a) (hne : a ≠ []) :
    (a ++ r).dropWhile Char.isWhitespace = a ++ r := by
  rw [List.dropWhile_eq_self_iff]
  intro hl
  have hlen : 0 < a.length := List.length_pos.mpr hne
  have hhead := (List.dropWhile_eq_self_iff.mp ha) hlen
  have hget : (a ++ r).get ⟨0, hl⟩ = a.get ⟨0, hlen⟩ := by
    simp only [List.get_eq_getElem]
    exact List.getElem_append_left hlen
  rw [hget]
  exact hhead

theorem rdropWhile_append_eq_self (l : PyStr) {b : PyStr}
    (hb : b.rdropWhile Char.isWhitespace = b) (hne : b ≠ []) :
    (l ++ b).rdropWhile Char.isWhitespace = l ++ b := by
  rw [List.rdropWhile_eq_self_iff]
  intro hl
  have hlast := (List.rdropWhile_eq_self_iff.mp hb) hne
  rw [List.getLast_append' l b hne]
  exact hlast

theorem pstrip_append_append {a : PyStr} (m : PyStr) {b : PyStr}
    (ha : pstrip a = a) (hane : a ≠ []) (hb : pstrip b = b) (hbne : b ≠ []) :
    pstrip (a ++ m ++ b) = a ++ m ++ b := by
  show ((a ++ m ++ b).dropWhile Char.isWhitespace).rdropWhile Char.isWhitespace = a ++ m ++ b
  rw [List.append_assoc]
  rw [dropWhile_append_eq_self (m ++ b) (dropWhile_eq_self_of_pstrip_eq ha) hane]
  rw [← List.append_assoc]
  rw [rdropWhile_append_eq_self (a ++ m) (rdropWhile_eq_self_of_pstrip_eq hb) hbne]


/-- Python `str.lower()`: characterwise lowering. -/
def plower (s : PyStr) : PyStr := s.map Char.toLower

/-- Python `needle in hay` on strings: substring test. -/
def pyContains (hay needle : PyStr) : Bool := decide (needle <:+: hay)

/-- `FlashcardData` from `ai/base_provider.py` (question, answer, mandatory
source attribution). -/
structure FlashcardData where
  question : PyStr
  answer : PyStr
  source : PyStr
deriving DecidableEq, Repr

/-- `FlashcardData.__post_init__` from `ai/base_provider.py`: construction
fails (raises `ValueError`) when question, answer or source is empty/blank,
or when the stripped source is shorter than 5 characters. -/
def mkFlashcardData (question answer source : PyStr) : Option FlashcardData :=
  if pstrip question = [] then none
  else if pstrip answer = [] then none
  else if pstrip source = [] then none
  else if (pstrip source).length < 5 then none
  else some ⟨question, answer, source⟩

/-- One candidate card of the decoded JSON `flashcards` array: each field is
present (`some`) or absent (`none`). -/
structure Candidate where
  question : Option PyStr
  answer : Option PyStr
  source : Option PyStr
deriving DecidableEq, Repr

/-- The per-candidate body of the loop in `parse_flashcard_response`
(`ai/validation.py`, lines 46-85): skip candidates missing question or
answer; synthesize `"<doc> - Page Unknown"` for a missing/blank source;
prefix `"<doc> - "` when the stripped source does not mention the document
name case-insensitively; construction failures (`FlashcardData` raising)
drop the candidate. -/
def processCandidate (document_name : PyStr) (c : Candidate) : Option FlashcardData :=
  match c.question, c.answer with
  | some q, some a =>
    let raw : PyStr :=
      match c.source with
      | none => document_name ++ " - Page Unknown".toList
      | some s => if pstrip s = [] then document_name ++ " - Page Unknown".toList else s
    let source₁ := pstrip raw
    let source₂ :=
      if pyContains (plower source₁) (plower document_name) then source₁
      else document_name ++ " - ".toList ++ source₁
    mkFlashcardData (pstrip q) (pstrip a) source₂
  | _, _ => none

/-- `parse_flashcard_response` (`ai/validation.py`) after JSON decoding:
map the candidate loop over the `flashcards` array and fail with
`AIValidationError` when no valid flashcard remains. -/
def parse_flashcard_response (document_name : PyStr) (cards : List Candidate) :
    Except PyStr (List FlashcardData) :=
  let flashcards := cards.filterMap (processCandidate document_name)
  if flashcards.isEmpty then .error ("No valid flashcards generated".toList)
  else .ok flashcards

theorem pyContains_append_left (a r : PyStr) : pyContains (a ++ r) a = true := by
  simp only [pyContains, decide_eq_true_eq]
  have h := List.infix_append [] a r
  simpa using h

theorem plower_append (a b : PyStr) : plower (a ++ b) = plower a ++ plower b :=
  List.map_append _ a b

theorem mkFlashcardData_some {q a s : PyStr} {fc : FlashcardData}
    (h : mkFlashcardData q a s = some fc) :
    fc = ⟨q, a, s⟩ ∧ pstrip s ≠ [] ∧ 5 ≤ (pstrip s).length := by
  unfold mkFlashcardData at h
  split_ifs at h with h1 h2 h3 h4
  · exact ⟨(Option.some_injective _ h).symm, h3, by omega⟩

theorem mkFlashcardData_eq_some {q a s : PyStr}
    (hq : pstrip q ≠ []) (ha : pstrip a ≠ []) (hs : pstrip s ≠ [])
    (hlen : 5 ≤ (pstrip s).length) :
    mkFlashcardData q a s = some ⟨q, a, s⟩ := by
  unfold mkFlashcardData
  simp [hq, ha, hs, Nat.not_lt.mpr hlen]

/-- C1.  Attribution invariant: every `FlashcardData` in a list returned by
the Response Validator (`parse_flashcard_response`) has a non-empty source
that contains the document name (as in the source, containment is the
case-insensitive substring test `document_name.lower() in source.lower()`). -/
theorem c1_attribution_invariant (document_name : PyStr) (cards : List Candidate)
    (result : List FlashcardData) (fc : FlashcardData)
    (hok : parse_flashcard_response document_name cards = .ok result)
    (hmem : fc ∈ result) :
    fc.source ≠ [] ∧ pyContains (plower fc.source) (plower document_name) = true := by
  simp only [parse_flashcard_response] at hok
  split at hok
  · exact absurd hok (by simp)
  · have hres : result = cards.filterMap (processCandidate document_name) := by
      cases hok; rfl
    subst hres
    obtain ⟨c, _, hpc⟩ := List.mem_filterMap.mp hmem
    simp only [processCandidate] at hpc
    rcases hcq : c.question with _ | q <;> rw [hcq] at hpc
    · cases hpc
    rcases hca : c.answer with _ | a <;> rw [hca] at hpc
    · cases hpc
    simp only at hpc
    split at hpc
    case _ hbranch =>
      obtain ⟨hfc, hne, _⟩ := mkFlashcardData_some hpc
      subst hfc
      exact ⟨ne_nil_of_pstrip_ne_nil hne, hbranch⟩
    case _ hbranch =>
      obtain ⟨hfc, hne, _⟩ := mkFlashcardData_some hpc
      subst hfc
      constructor
      · simp
      · rw [plower_append, plower_append, List.append_assoc]
        exact pyContains_append_left _ _

/-- Closed witness for C1: the attribution invariant evaluated on a concrete
parse of one candidate. -/
theorem c1_attribution_invariant_witness :
    (⟨"Q1".toList, "A1".toList, "doc.pdf - p. 1".toList⟩ : FlashcardData).source ≠ [] ∧
      pyContains (plower (⟨"Q1".toList, "A1".toList, "doc.pdf - p. 1".toList⟩ :
        FlashcardData).source) (plower "doc.pdf".toList) = true :=
  c1_attribution_invariant "doc.pdf".toList
    [⟨some "Q1".toList, some "A1".toList, some "doc.pdf - p. 1".toList⟩]
    [⟨"Q1".toList, "A1".toList, "doc.pdf - p. 1".toList⟩]
    ⟨"Q1".toList, "A1".toList, "doc.pdf - p. 1".toList⟩
    (by decide) (by decide)

/-- A candidate whose three fields are all present. -/
def wfCandidate (t : PyStr × PyStr × PyStr) : Candidate :=
  ⟨some t.1, some t.2.1, some t.2.2⟩

theorem processCandidate_wellFormed (document_name q a s : PyStr)
    (hdoc : pstrip document_name = document_name) (hdocne : document_name ≠ [])
    (hq : pstrip q ≠ []) (ha : pstrip a ≠ []) (hs : 5 ≤ (pstrip s).length) :
    ∃ src, processCandidate document_name (wfCandidate (q, a, s)) =
      some ⟨pstrip q, pstrip a, src⟩ := by
  have hsne : pstrip s ≠ [] := by
    intro h0; rw [h0] at hs; simp at hs
  simp only [processCandidate, wfCandidate, if_neg hsne]
  have hq2 : pstrip (pstrip q) ≠ [] := by rw [pstrip_idem]; exact hq
  have ha2 : pstrip (pstrip a) ≠ [] := by rw [pstrip_idem]; exact ha
  split
  · -- stripped source already mentions the document name: kept as is
    refine ⟨pstrip s, ?_⟩
    have hs2 : pstrip (pstrip s) ≠ [] := by rw [pstrip_idem]; exact hsne
    have hlen2 : 5 ≤ (pstrip (pstrip s)).length := by rw [pstrip_idem]; exact hs
    exact mkFlashcardData_eq_some hq2 ha2 hs2 hlen2
  · -- document name prefixed onto the stripped source
    refine ⟨document_name ++ " - ".toList ++ pstrip s, ?_⟩
    have hfix : pstrip (document_name ++ " - ".toList ++ pstrip s) =
        document_name ++ " - ".toList ++ pstrip s :=
      pstrip_append_append " - ".toList hdoc hdocne (pstrip_idem s) hsne
    have hs3 : pstrip (document_name ++ " - ".toList ++ pstrip s) ≠ [] := by
      rw [hfix]; simp
    have hlen3 : 5 ≤ (pstrip (document_name ++ " - ".toList ++ pstrip s)).length := by
      rw [hfix]
      have h1 : 1 ≤ document_name.length := List.length_pos.mpr hdocne
      simp only [List.length_append]
      have h2 : " - ".toList.length = 3 := by decide
      omega
    exact mkFlashcardData_eq_some hq2 ha2 hs3 hlen3

theorem filterMap_processCandidate_wellFormed (document_name : PyStr)
    (ts : List (PyStr × PyStr × PyStr))
    (hdoc : pstrip document_name = document_name) (hdocne : document_name ≠ [])
    (hwf : ∀ t ∈ ts, pstrip t.1 ≠ [] ∧ pstrip t.2.1 ≠ [] ∧ 5 ≤ (pstrip t.2.2).length) :
    ((ts.map wfCandidate).filterMap (processCandidate document_name)).length = ts.length ∧
    ((ts.map wfCandidate).filterMap (processCandidate document_name)).map
      FlashcardData.question = ts.map (fun t => pstrip t.1) ∧
    ((ts.map wfCandidate).filterMap (processCandidate document_name)).map
      FlashcardData.answer = ts.map (fun t => pstrip t.2.1) := by
  induction ts with
  | nil => simp
  | cons t ts ih =>
    obtain ⟨h1, h2, h3⟩ := hwf t (by simp)
    obtain ⟨src, hsrc⟩ :=
      processCandidate_wellFormed document_name t.1 t.2.1 t.2.2 hdoc hdocne h1 h2 h3
    have ht : wfCandidate t = wfCandidate (t.1, t.2.1, t.2.2) := rfl
    obtain ⟨ihl, ihq, iha⟩ := ih (fun u hu => hwf u (by simp [hu]))
    simp only [List.map_cons, List.filterMap_cons, ht, hsrc, List.length_cons, List.map_cons]
    exact ⟨by rw [ihl], by rw [ihq], by rw [iha]⟩

/-- C6 counterexample.  A single well-formed candidate (all three fields
present) whose question carries surrounding whitespace: the Validator
returns it with the question *stripped*, so the returned question text is
not the candidate text unchanged. -/
theorem c6_parse_roundtrip_counterexample :
    parse_flashcard_response "doc.pdf".toList
      [⟨some " Q1 ".toList, some "A1".toList, some "doc.pdf - p. 1".toList⟩] =
      .ok [⟨"Q1".toList, "A1".toList, "doc.pdf - p. 1".toList⟩] ∧
    "Q1".toList ≠ " Q1 ".toList := by
  constructor
  · decide
  · decide

/-- C6 (amended).  For N candidates with all three fields present, non-blank
question and answer, a stripped source of length at least 5, and a non-blank
document name without surrounding whitespace, the Validator returns exactly
N FlashcardData whose question and answer texts are the candidates' texts
stripped of surrounding whitespace. -/
theorem c6_parse_roundtrip_amended (document_name : PyStr)
    (ts : List (PyStr × PyStr × PyStr))
    (hdoc : pstrip document_name = document_name) (hdocne : document_name ≠ [])
    (htsne : ts ≠ [])
    (hwf : ∀ t ∈ ts, pstrip t.1 ≠ [] ∧ pstrip t.2.1 ≠ [] ∧ 5 ≤ (pstrip t.2.2).length) :
    ∃ result, parse_flashcard_response document_name (ts.map wfCandidate) = .ok result ∧
      result.length = ts.length ∧
      result.map FlashcardData.question = ts.map (fun t => pstrip t.1) ∧
      result.map FlashcardData.answer = ts.map (fun t => pstrip t.2.1) := by
  obtain ⟨hlen, hq, ha⟩ :=
    filterMap_processCandidate_wellFormed document_name ts hdoc hdocne hwf
  refine ⟨(ts.map wfCandidate).filterMap (processCandidate document_name), ?_, hlen, hq, ha⟩
  simp only [parse_flashcard_response]
  rw [if_neg]
  intro hempty
  rw [List.isEmpty_iff] at hempty
  have := congrArg List.length hempty
  rw [hlen] at this
  exact htsne (List.length_eq_zero.mp (by simpa using this))

/-- Closed witness for C6 (amended): two concrete well-formed candidates. -/
theorem c6_parse_roundtrip_amended_witness :
    ∃ result, parse_flashcard_response "doc.pdf".toList
        ([(" Q1 ".toList, "A1".toList, "doc.pdf - p. 1".toList),
          ("Q2".toList, " A2".toList, "p. 2 of 9".toList)].map wfCandidate) = .ok result ∧
      result.length = 2 ∧
      result.map FlashcardData.question = ["Q1".toList, "Q2".toList] ∧
      result.map FlashcardData.answer = ["A1".toList, "A2".toList] := by
  have h := c6_parse_roundtrip_amended "doc.pdf".toList
    [(" Q1 ".toList, "A1".toList, "doc.pdf - p. 1".toList),
     ("Q2".toList, " A2".toList, "p. 2 of 9".toList)]
    (by decide) (by decide) (by decide) (by decide)
  simpa using h

/-- C7 counterexample.  A present source with surrounding whitespace that
does not mention the document name: the Validator prefixes the *stripped*
source, not the original source, so the produced attribution differs from
`"<documentName> - " ++ originalSource`. -/
theorem c7_source_rules_counterexample :
    processCandidate "doc.pdf".toList
      ⟨some "Q?".toList, some "A1".toList, some " p. 3 ".toList⟩ =
      some ⟨"Q?".toList, "A1".toList, "doc.pdf - p. 3".toList⟩ ∧
    "doc.pdf - p. 3".toList ≠ "doc.pdf - ".toList ++ " p. 3 ".toList := by
  constructor
  · decide
  · decide

/-- C7 (amended).  For a document name that is non-blank and carries no
surrounding whitespace, and a candidate with non-blank question and answer:
a missing or blank source yields exactly `"<documentName> - Page Unknown"`,
and a present source whose stripped text does not mention the document name
(case-insensitively) yields the stripped source prefixed with
`"<documentName> - "`; in both cases the candidate is kept, not dropped. -/
theorem c7_source_rules_amended (document_name q a : PyStr) (c : Candidate)
    (hdoc : pstrip document_name = document_name) (hdocne : document_name ≠ [])
    (hq : c.question = some q) (ha : c.answer = some a)
    (hqne : pstrip q ≠ []) (hane : pstrip a ≠ []) :
    ((c.source = none ∨ ∃ s, c.source = some s ∧ pstrip s = []) →
      processCandidate document_name c =
        some ⟨pstrip q, pstrip a, document_name ++ " - Page Unknown".toList⟩) ∧
    (∀ s, c.source = some s → pstrip s ≠ [] →
      pyContains (plower (pstrip s)) (plower document_name) = false →
      processCandidate document_name c =
        some ⟨pstrip q, pstrip a, document_name ++ " - ".toList ++ pstrip s⟩) := by
  have hq2 : pstrip (pstrip q) ≠ [] := by rw [pstrip_idem]; exact hqne
  have ha2 : pstrip (pstrip a) ≠ [] := by rw [pstrip_idem]; exact hane
  have hsplit : " - Page Unknown".toList = " - Page ".toList ++ "Unknown".toList := by decide
  have hpu : pstrip (document_name ++ " - Page Unknown".toList) =
      document_name ++ " - Page Unknown".toList := by
    rw [hsplit, ← List.append_assoc]
    exact pstrip_append_append " - Page ".toList hdoc hdocne (by decide) (by decide)
  have hpu_contains :
      pyContains (plower (document_name ++ " - Page Unknown".toList))
        (plower document_name) = true := by
    rw [plower_append]; exact pyContains_append_left _ _
  have hpu_len : 5 ≤ (pstrip (document_name ++ " - Page Unknown".toList)).length := by
    rw [hpu]
    simp only [List.length_append]
    have : " - Page Unknown".toList.length = 15 := by decide
    omega
  have hpu_ne : pstrip (document_name ++ " - Page Unknown".toList) ≠ [] := by
    rw [hpu]; simp [hdocne]
  constructor
  · intro hsrc
    simp only [processCandidate, hq, ha]
    have hraw : (match c.source with
        | none => document_name ++ " - Page Unknown".toList
        | some s =>
          if pstrip s = [] then document_name ++ " - Page Unknown".toList else s) =
        document_name ++ " - Page Unknown".toList := by
      rcases hsrc with h0 | ⟨s, hs, hblank⟩
      · rw [h0]
      · rw [hs]; simp [hblank]
    rw [hraw, hpu, if_pos hpu_contains]
    exact mkFlashcardData_eq_some hq2 ha2 hpu_ne hpu_len
  · intro s hs hsne hnc
    simp only [processCandidate, hq, ha, hs, if_neg hsne]
    rw [if_neg]
    · have hfix : pstrip (document_name ++ " - ".toList ++ pstrip s) =
          document_name ++ " - ".toList ++ pstrip s :=
        pstrip_append_append " - ".toList hdoc hdocne (pstrip_idem s) hsne
      have h5 : 5 ≤ (pstrip (document_name ++ " - ".toList ++ pstrip s)).length := by
        rw [hfix]
        have h1 : 1 ≤ document_name.length := List.length_pos.mpr hdocne
        have h2 : 1 ≤ (pstrip s).length := List.length_pos.mpr hsne
        simp only [List.length_append]
        have h3 : " - ".toList.length = 3 := by decide
        omega
      have hne2 : pstrip (document_name ++ " - ".toList ++ pstrip s) ≠ [] := by
        rw [hfix]; simp [hdocne]
      exact mkFlashcardData_eq_some hq2 ha2 hne2 h5
    · rw [hnc]; simp

/-- Closed witness for C7 (amended): both source rules evaluated on concrete
candidates. -/
theorem c7_source_rules_amended_witness :
    processCandidate "doc.pdf".toList ⟨some "Q?".toList, some "A1".toList, none⟩ =
      some ⟨"Q?".toList, "A1".toList, "doc.pdf".toList ++ " - Page Unknown".toList⟩ ∧
    processCandidate "doc.pdf".toList
        ⟨some "Q?".toList, some "A1".toList, some " p. 3 ".toList⟩ =
      some ⟨"Q?".toList, "A1".toList, "doc.pdf".toList ++ " - ".toList ++ "p. 3".toList⟩ := by
  have h1 := c7_source_rules_amended "doc.pdf".toList "Q?".toList "A1".toList
    ⟨some "Q?".toList, some "A1".toList, none⟩
    (by decide) (by decide) rfl rfl (by decide) (by decide)
  have h2 := c7_source_rules_amended "doc.pdf".toList "Q?".toList "A1".toList
    ⟨some "Q?".toList, some "A1".toList, some " p. 3 ".toList⟩
    (by decide) (by decide) rfl rfl (by decide) (by decide)
  constructor
  · have := h1.1 (Or.inl rfl)
    simpa using this
  · have := h2.2 " p. 3 ".toList rfl (by decide) (by decide)
    simpa using this

/- Chunking Strategy: `OllamaProvider._chunk_document` and
`OllamaProvider._generate_with_chunking` (`ai/ollama_provider.py`). -/

/-- The `"\n\n"` separator joining page texts inside one chunk. -/
def nn : PyStr := "\n\n".toList

/-- `self.max_context_tokens` of `OllamaProvider.__init__`. -/
def max_context_tokens : Nat := 4096

/-- `max_chunk_chars = int(self.max_context_tokens * 0.7 * 4)`.  The float
computation yields `int(11468.8) = 11468`, which the truncating natural
division below reproduces exactly. -/
def max_chunk_chars : Nat := max_context_tokens * 7 * 4 / 10

/-- The page loop of `_chunk_document`: greedily pack pages; when adding the
next page would overflow a non-empty chunk, flush it and start a new chunk
with that page; finally flush a non-empty trailing chunk. -/
def chunk_loop (maxC : Nat) :
    List (Nat × PyStr) → List PyStr → List (Nat × PyStr) → Nat →
    List (PyStr × List (Nat × PyStr))
  | [], cur, curPages, _ =>
    if cur = [] then [] else [(List.intercalate nn cur, curPages)]
  | (page_num, page_text) :: rest, cur, curPages, curSize =>
    if curSize + page_text.length > maxC ∧ cur ≠ [] then
      (List.intercalate nn cur, curPages) ::
        chunk_loop maxC rest [page_text] [(page_num, page_text)] page_text.length
    else
      chunk_loop maxC rest (cur ++ [page_text]) (curPages ++ [(page_num, page_text)])
        (curSize + page_text.length)

/-- `OllamaProvider._chunk_document` (the `document_text` argument is unused
by the source function as well). -/
def chunk_document (_document_text : PyStr) (page_data : List (Nat × PyStr)) :
    List (PyStr × List (Nat × PyStr)) :=
  chunk_loop max_chunk_chars page_data [] [] 0

theorem intercalate_single (sep x : PyStr) : List.intercalate sep [x] = x := by
  simp [List.intercalate]

/-- Invariant proof for the chunking loop: the chunks partition
`curPages ++ rest`; each chunk is non-empty, its text is its pages joined
with `"\n\n"`, and a chunk holding at least two pages respects the size
budget on the sum of its page sizes. -/
theorem chunk_loop_spec (maxC : Nat) (rest : List (Nat × PyStr)) :
    ∀ (cur : List PyStr) (curPages : List (Nat × PyStr)) (curSize : Nat),
    cur = curPages.map Prod.snd →
    curSize = (curPages.map fun u => u.2.length).sum →
    (2 ≤ curPages.length → curSize ≤ maxC) →
    ((chunk_loop maxC rest cur curPages curSize).map Prod.snd).flatten = curPages ++ rest ∧
    ∀ ch ∈ chunk_loop maxC rest cur curPages curSize,
      ch.2 ≠ [] ∧ ch.1 = List.intercalate nn (ch.2.map Prod.snd) ∧
      (2 ≤ ch.2.length → (ch.2.map fun u => u.2.length).sum ≤ maxC) := by
  induction rest with
  | nil =>
    intro cur curPages curSize hc hs hinv
    by_cases hcur : cur = []
    · subst hcur
      have hpages : curPages = [] := by
        cases curPages with
        | nil => rfl
        | cons p ps => simp at hc
      simp [chunk_loop, hpages]
    · simp only [chunk_loop, if_neg hcur]
      refine ⟨by simp, ?_⟩
      intro ch hch
      simp only [List.mem_singleton] at hch
      subst hch
      refine ⟨?_, ?_, ?_⟩
      · intro h0
        have h0' : curPages = [] := h0
        rw [h0'] at hc
        simp at hc
        exact hcur hc
      · show List.intercalate nn cur = List.intercalate nn (curPages.map Prod.snd)
        rw [← hc]
      · intro h2
        have h2' : 2 ≤ curPages.length := h2
        show (curPages.map fun u => u.2.length).sum ≤ maxC
        rw [← hs]
        exact hinv h2'
  | cons page rest ih =>
    intro cur curPages curSize hc hs hinv
    obtain ⟨page_num, page_text⟩ := page
    by_cases hcond : curSize + page_text.length > maxC ∧ cur ≠ []
    · simp only [chunk_loop, if_pos hcond]
      obtain ⟨hflat, hmem⟩ := ih [page_text] [(page_num, page_text)] page_text.length
        (by simp) (by simp) (by intro h2; simp at h2)
      constructor
      · simp only [List.map_cons, List.flatten_cons, hflat]
        simp
      · intro ch hch
        rcases List.mem_cons.mp hch with h0 | h0
        · subst h0
          refine ⟨?_, ?_, ?_⟩
          · intro h0
            have h0' : curPages = [] := h0
            rw [h0'] at hc
            simp at hc
            exact hcond.2 hc
          · show List.intercalate nn cur = List.intercalate nn (curPages.map Prod.snd)
            rw [← hc]
          · intro h2
            have h2' : 2 ≤ curPages.length := h2
            show (curPages.map fun u => u.2.length).sum ≤ maxC
            rw [← hs]
            exact hinv h2'
        · exact hmem ch h0
    · simp only [chunk_loop, if_neg hcond]
      have hinv2 : 2 ≤ (curPages ++ [(page_num, page_text)]).length →
          curSize + page_text.length ≤ maxC := by
        intro h2
        by_cases hcur : cur = []
        · have hpages : curPages = [] := by
            cases curPages with
            | nil => rfl
            | cons p ps => rw [hcur] at hc; simp at hc
          rw [hpages] at h2
          simp at h2
        · by_contra hgt
          exact hcond ⟨by omega, hcur⟩
      obtain ⟨hflat, hmem⟩ := ih (cur ++ [page_text]) (curPages ++ [(page_num, page_text)])
        (curSize + page_text.length) (by simp [hc]) (by simp [hs]) hinv2
      refine ⟨?_, hmem⟩
      rw [hflat]
      simp

/-- C4 counterexample.  A single page one character over the budget becomes
its own chunk whose text has 11469 characters, exceeding
`max_chunk_chars = 11468`: the claim that no chunk exceeds the budget is
false. -/
theorem c4_chunk_budget_counterexample :
    (chunk_document [] [(1, List.replicate 11469 'a')]).map (fun ch => ch.1.length) =
      [11469] ∧ max_chunk_chars < 11469 := by
  constructor
  · have hcond : ¬(0 + (List.replicate 11469 'a').length > max_chunk_chars ∧
        ([] : List PyStr) ≠ []) := fun h => h.2 rfl
    simp only [chunk_document, chunk_loop, if_neg hcond, List.nil_append]
    rw [if_neg (List.cons_ne_nil _ _)]
    simp only [List.map_cons, List.map_nil, intercalate_single, List.length_replicate]
  · decide

/-- C4 (amended).  Chunk completeness for `_chunk_document`: flattening the
chunks' page lists reproduces the original unit list exactly (no loss), each
chunk is non-empty and its text is its units' texts joined with `"\n\n"`,
and every chunk holding at least two units keeps the sum of its unit sizes
within `max_chunk_chars`; a chunk made of one oversized unit may exceed the
budget (see the counterexample). -/
theorem c4_chunk_completeness_amended (document_text : PyStr)
    (page_data : List (Nat × PyStr)) :
    ((chunk_document document_text page_data).map Prod.snd).flatten = page_data ∧
    ∀ ch ∈ chunk_document document_text page_data,
      ch.2 ≠ [] ∧ ch.1 = List.intercalate nn (ch.2.map Prod.snd) ∧
      (2 ≤ ch.2.length → (ch.2.map fun u => u.2.length).sum ≤ max_chunk_chars) := by
  have h := chunk_loop_spec max_chunk_chars page_data [] [] 0 rfl rfl
    (fun _ => Nat.zero_le _)
  exact ⟨by simpa [chunk_document] using h.1, by simpa [chunk_document] using h.2⟩

/-- Closed witness for C4 (amended): two small pages pack into one chunk. -/
theorem c4_chunk_completeness_amended_witness :
    ((chunk_document [] [(1, "ab".toList), (2, "cd".toList)]).map Prod.snd).flatten =
      [(1, "ab".toList), (2, "cd".toList)] ∧
    ("ab\n\ncd".toList, [(1, "ab".toList), (2, "cd".toList)]).2 ≠ [] ∧
    (([(1, "ab".toList), (2, "cd".toList)].map fun u => u.2.length).sum ≤
      max_chunk_chars) := by
  have h := c4_chunk_completeness_amended [] [(1, "ab".toList), (2, "cd".toList)]
  have hm := h.2 ("ab\n\ncd".toList, [(1, "ab".toList), (2, "cd".toList)]) (by decide)
  exact ⟨h.1, hm.1, hm.2.2 (by decide)⟩

/-- Oracle for `_generate_single` applied to one chunk: arguments are chunk
text, document name, chunk pages and the per-chunk card budget; `.error`
models a raised exception. -/
abbrev GenOracle :=
  PyStr → PyStr → List (Nat × PyStr) → Nat → Except PyStr (List FlashcardData)

/-- The chunk loop of `_generate_with_chunking`: accumulate each chunk's
flashcards, skip a chunk whose generation raises, and stop as soon as the
accumulated count reaches `max_cards`. -/
def gen_chunks_loop (gen : GenOracle) (document_name : PyStr)
    (cards_per_chunk max_cards : Nat) :
    List (PyStr × List (Nat × PyStr)) → List FlashcardData → List FlashcardData
  | [], all_flashcards => all_flashcards
  | (chunk_text, chunk_pages) :: rest, all_flashcards =>
    match gen chunk_text document_name chunk_pages cards_per_chunk with
    | .error _ =>
      gen_chunks_loop gen document_name cards_per_chunk max_cards rest all_flashcards
    | .ok flashcards =>
      let acc := all_flashcards ++ flashcards
      if max_cards ≤ acc.length then acc
      else gen_chunks_loop gen document_name cards_per_chunk max_cards rest acc

/-- `OllamaProvider._generate_with_chunking`: chunk the document, give each
chunk the budget `max(1, max_cards // len(chunks))`, run the chunk loop and
truncate to `max_cards`.  An empty chunk list makes the Python division
raise `ZeroDivisionError`, modelled as `.error`. -/
def generate_with_chunking (gen : GenOracle) (document_text document_name : PyStr)
    (page_data : List (Nat × PyStr)) (max_cards : Nat) :
    Except PyStr (List FlashcardData) :=
  let chunks := chunk_document document_text page_data
  if chunks.isEmpty then .error "ZeroDivisionError".toList
  else
    let cards_per_chunk := max 1 (max_cards / chunks.length)
    .ok ((gen_chunks_loop gen document_name cards_per_chunk max_cards chunks []).take
      max_cards)

/-- The net contribution of one chunk: its generated cards, or none when its
generation raised. -/
def chunk_result (gen : GenOracle) (document_name : PyStr) (cards_per_chunk : Nat)
    (ch : PyStr × List (Nat × PyStr)) : List FlashcardData :=
  match gen ch.1 document_name ch.2 cards_per_chunk with
  | .error _ => []
  | .ok flashcards => flashcards

/-- Truncated to `max_cards`, the early-stopping chunk loop computes the
same list as concatenating every chunk's contribution. -/
theorem gen_chunks_loop_take (gen : GenOracle) (document_name : PyStr)
    (cards_per_chunk max_cards : Nat) :
    ∀ (chunks : List (PyStr × List (Nat × PyStr))) (acc : List FlashcardData),
    (gen_chunks_loop gen document_name cards_per_chunk max_cards chunks acc).take
        max_cards =
      (acc ++ (chunks.map (chunk_result gen document_name cards_per_chunk)).flatten).take
        max_cards := by
  intro chunks
  induction chunks with
  | nil => intro acc; simp [gen_chunks_loop]
  | cons ch rest ih =>
    intro acc
    obtain ⟨chunk_text, chunk_pages⟩ := ch
    cases hgen : gen chunk_text document_name chunk_pages cards_per_chunk with
    | error e =>
      simp only [gen_chunks_loop, chunk_result, hgen, List.map_cons, List.flatten_cons]
      rw [ih acc]
      simp
    | ok flashcards =>
      simp only [gen_chunks_loop, chunk_result, hgen, List.map_cons, List.flatten_cons]
      by_cases hstop : max_cards ≤ (acc ++ flashcards).length
      · rw [if_pos hstop, ← List.append_assoc, List.take_append_of_le_length hstop]
      · rw [if_neg hstop]
        rw [ih (acc ++ flashcards)]
        simp [List.append_assoc]

/-- C5.  Chunked generation: with at least one chunk, the per-chunk budget
is `max(1, floor(max_cards / chunkCount))`, a chunk whose generation raises
contributes nothing without failing the document, and the result is the
concatenation of every chunk's contribution truncated to `max_cards`; in
particular at most `max_cards` cards are returned. -/
theorem c5_chunked_generation (gen : GenOracle) (document_text document_name : PyStr)
    (page_data : List (Nat × PyStr)) (max_cards : Nat)
    (h : chunk_document document_text page_data ≠ []) :
    generate_with_chunking gen document_text document_name page_data max_cards =
      .ok (((chunk_document document_text page_data).map
          (chunk_result gen document_name
            (max 1 (max_cards / (chunk_document document_text page_data).length)))).flatten.take
        max_cards) ∧
    ∀ result,
      generate_with_chunking gen document_text document_name page_data max_cards =
        .ok result → result.length ≤ max_cards := by
  have hne : ¬(chunk_document document_text page_data).isEmpty := by
    simp [List.isEmpty_iff, h]
  constructor
  · simp only [generate_with_chunking, Bool.not_eq_true] at hne ⊢
    rw [if_neg (by simp [hne])]
    rw [gen_chunks_loop_take]
    simp
  · intro result hres
    simp only [generate_with_chunking] at hres
    rw [if_neg (by simp [List.isEmpty_iff, h])] at hres
    cases hres
    exact List.length_take_le _ _

/-- A fixed flashcard used by concrete witnesses. -/
def demoCard : FlashcardData :=
  ⟨"What is X?".toList, "X is Y.".toList, "doc.pdf - Page 1".toList⟩

/-- A concrete generation oracle returning the requested number of cards. -/
def demoGen : GenOracle := fun _ _ _ n => .ok (List.replicate n demoCard)

/-- Closed witness for C5: a one-chunk document with budget 3. -/
theorem c5_chunked_generation_witness :
    generate_with_chunking demoGen [] "doc.pdf".toList [(1, "ab".toList)] 3 =
      .ok (((chunk_document [] [(1, "ab".toList)]).map
          (chunk_result demoGen "doc.pdf".toList
            (max 1 (3 / (chunk_document [] [(1, "ab".toList)]).length)))).flatten.take 3) ∧
    ∀ result,
      generate_with_chunking demoGen [] "doc.pdf".toList [(1, "ab".toList)] 3 =
        .ok result → result.length ≤ 3 :=
  c5_chunked_generation demoGen [] "doc.pdf".toList [(1, "ab".toList)] 3 (by decide)

/- Document Processing Orchestrator: `DocumentProcessorService.process_documents`
(`document_processor.py`), over the `Document` state machine of
`core/models.py`. -/

/-- `DocumentStatus` from `core/models.py`. -/
inductive DocumentStatus where
  | uploaded
  | processing
  | completed
  | failed
deriving DecidableEq, Repr

/-- `Document` domain model (`core/models.py`): the fields the Orchestrator
reads or writes.  Timestamps are not modelled; `processed_at` keeps only
presence. -/
structure Document where
  filename : PyStr
  status : DocumentStatus
  deck_id : Option Nat := none
  processed_at : Bool := false
  error_message : Option PyStr := none
deriving DecidableEq, Repr

/-- `Document.mark_processing`. -/
def mark_processing (d : Document) : Document :=
  { d with status := .processing }

/-- `Document.mark_completed`. -/
def mark_completed (d : Document) (deck_id : Nat) : Document :=
  { d with status := .completed, deck_id := some deck_id, processed_at := true }

/-- `Document.mark_failed`. -/
def mark_failed (d : Document) (error_message : PyStr) : Document :=
  { d with status := .failed, error_message := some error_message }

/-- The document repository, modelled as an association list keyed by
document id (`PostgresDocumentRepo.get`). -/
def repo_get (docs : List (Nat × Document)) (doc_id : Nat) : Option Document :=
  (docs.find? fun p => p.1 == doc_id).map Prod.snd

/-- `PostgresDocumentRepo.update`: replace the stored document. -/
def repo_update (docs : List (Nat × Document)) (doc_id : Nat) (d : Document) :
    List (Nat × Document) :=
  docs.map fun p => if p.1 == doc_id then (doc_id, d) else p

/-- Outcome of the per-document pipeline body (extract text, generate
flashcards, create card records) chosen by the environment: the stage at
which an exception is raised, or success with the number of cards created.
`extractRaised` happens before the provider is invoked; the others after. -/
inductive PipeResult where
  | extractRaised (msg : PyStr)
  | generateRaised (msg : PyStr)
  | persistRaised (msg : PyStr)
  | success (cards_created : Nat)
deriving DecidableEq, Repr

/-- The message of a raised pipeline stage, if any. -/
def raised_message : PipeResult → Option PyStr
  | .extractRaised msg => some msg
  | .generateRaised msg => some msg
  | .persistRaised msg => some msg
  | .success _ => none

/-- How many `generate_flashcards` provider calls the pipeline body made. -/
def pipe_provider_calls : PipeResult → Nat
  | .extractRaised _ => 0
  | _ => 1

/-- Mutable state threaded through one `process_documents` invocation:
the repository plus the counters accumulated by the loop, instrumented
with the number of provider `generate_flashcards` calls. -/
structure ProcState where
  docs : List (Nat × Document)
  total_cards : Nat := 0
  successful_documents : Nat := 0
  failed_documents : Nat := 0
  provider_calls : Nat := 0
deriving DecidableEq, Repr

/-- One iteration of the `for doc_id in document_ids` loop of
`process_documents` (`document_processor.py`, lines 89-189): a missing
record counts as failed; a COMPLETED document is skipped and counted as
successful; a PROCESSING document is skipped and counted in neither bucket;
otherwise the document is marked PROCESSING and the pipeline body runs,
with any exception caught, recorded via `mark_failed`, and counted as a
failed document. -/
def process_one (pipeline : Nat → Document → PipeResult) (deck_id : Nat)
    (s : ProcState) (doc_id : Nat) : ProcState :=
  match repo_get s.docs doc_id with
  | none => { s with failed_documents := s.failed_documents + 1 }
  | some document =>
    if document.status = .completed then
      { s with successful_documents := s.successful_documents + 1 }
    else if document.status = .processing then s
    else
      let document := mark_processing document
      let docs₁ := repo_update s.docs doc_id document
      match pipeline doc_id document with
      | .extractRaised msg =>
        { s with docs := repo_update docs₁ doc_id (mark_failed document msg),
                 failed_documents := s.failed_documents + 1 }
      | .generateRaised msg =>
        { s with docs := repo_update docs₁ doc_id (mark_failed document msg),
                 failed_documents := s.failed_documents + 1,
                 provider_calls := s.provider_calls + 1 }
      | .persistRaised msg =>
        { s with docs := repo_update docs₁ doc_id (mark_failed document msg),
                 failed_documents := s.failed_documents + 1,
                 provider_calls := s.provider_calls + 1 }
      | .success cards_created =>
        { s with docs := repo_update docs₁ doc_id (mark_completed document deck_id),
                 total_cards := s.total_cards + cards_created,
                 successful_documents := s.successful_documents + 1,
                 provider_calls := s.provider_calls + 1 }

/-- `ProcessingResult` from `schemas/flashcard.py`. -/
structure ProcessingResult where
  total_cards : Nat
  successful_documents : Nat
  failed_documents : Nat
  deck_id : Nat
deriving DecidableEq, Repr

/-- `DocumentProcessorService.process_documents`: fold the loop over the
requested ids and return the final repository state together with the
`ProcessingResult`.  (The deck card-count update after the loop touches the
deck entity only and is not modelled.) -/
def process_documents (pipeline : Nat → Document → PipeResult) (deck_id : Nat)
    (document_ids : List Nat) (docs₀ : List (Nat × Document)) :
    ProcState × ProcessingResult :=
  let s := document_ids.foldl (process_one pipeline deck_id) { docs := docs₀ }
  (s, ⟨s.total_cards, s.successful_documents, s.failed_documents, deck_id⟩)

theorem repo_get_update_self {docs : List (Nat × Document)} {doc_id : Nat}
    {v w : Document} (h : repo_get docs doc_id = some v) :
    repo_get (repo_update docs doc_id w) doc_id = some w := by
  induction docs with
  | nil => simp [repo_get] at h
  | cons p ps ih =>
    by_cases hp : (p.1 == doc_id) = true
    · have hp' : p.1 = doc_id := by simpa using hp
      subst hp'
      simp [repo_get, repo_update]
    · have h' : repo_get ps doc_id = some v := by
        unfold repo_get at h
        rwa [@List.find?_cons_of_neg _ (fun q => q.1 == doc_id) p ps hp] at h
      unfold repo_get repo_update
      rw [List.map_cons, if_neg hp]
      rw [@List.find?_cons_of_neg _ (fun q => q.1 == doc_id) p _ hp]
      exact ih h'

/-- C3.  Idempotence: re-invoking the Orchestrator on a document already
COMPLETED leaves the whole state unchanged except for counting the document
as successful; in particular no cards are added, no provider call is made,
and the document record itself is untouched. -/
theorem c3_completed_skip (pipeline : Nat → Document → PipeResult) (deck_id : Nat)
    (s : ProcState) (doc_id : Nat) (document : Document)
    (hget : repo_get s.docs doc_id = some document)
    (hstatus : document.status = .completed) :
    process_one pipeline deck_id s doc_id =
      { s with successful_documents := s.successful_documents + 1 } := by
  unfold process_one
  rw [hget]
  simp [hstatus]

/-- Demonstration pipeline that always succeeds with zero cards. -/
def demoPipe : Nat → Document → PipeResult := fun _ _ => .success 0

/-- Demonstration pipeline whose generation stage always raises. -/
def demoRaisePipe : Nat → Document → PipeResult := fun _ _ => .generateRaised "boom".toList

/-- A document currently PROCESSING. -/
def procDoc : Document := { filename := "a.pdf".toList, status := .processing }

/-- A freshly uploaded document. -/
def uploadedDoc : Document := { filename := "b.pdf".toList, status := .uploaded }

/-- A document already COMPLETED. -/
def completedDoc : Document := { filename := "c.pdf".toList, status := .completed }

/-- Closed witness for C3: a COMPLETED document is skipped and only the
success counter moves. -/
theorem c3_completed_skip_witness :
    process_one demoPipe 7 { docs := [(1, completedDoc)] } 1 =
      { docs := [(1, completedDoc)], successful_documents := 1 } :=
  c3_completed_skip demoPipe 7 { docs := [(1, completedDoc)] } 1 completedDoc
    (by decide) (by decide)

/-- C2.  Per-document failure isolation: when the pipeline body for one
document raises at any stage, that document is marked FAILED with the error
message, the failure counter increments while the success counter and card
total are untouched, and the invocation over the full id list carries on
with the remaining documents from the post-failure state. -/
theorem c2_failure_isolation (pipeline : Nat → Document → PipeResult) (deck_id : Nat)
    (docs₀ : List (Nat × Document)) (pre post : List Nat) (doc_id : Nat)
    (document : Document) (msg : PyStr) (s s' : ProcState)
    (hs : s = List.foldl (process_one pipeline deck_id) { docs := docs₀ } pre)
    (hs' : s' = process_one pipeline deck_id s doc_id)
    (hget : repo_get s.docs doc_id = some document)
    (hc : document.status ≠ .completed) (hp : document.status ≠ .processing)
    (hraise : raised_message (pipeline doc_id (mark_processing document)) = some msg) :
    repo_get s'.docs doc_id =
      some { document with status := .failed, error_message := some msg } ∧
    s'.failed_documents = s.failed_documents + 1 ∧
    s'.successful_documents = s.successful_documents ∧
    s'.total_cards = s.total_cards ∧
    (process_documents pipeline deck_id (pre ++ doc_id :: post) docs₀).1 =
      List.foldl (process_one pipeline deck_id) s' post := by
  have hcont : (process_documents pipeline deck_id (pre ++ doc_id :: post) docs₀).1 =
      List.foldl (process_one pipeline deck_id) s' post := by
    simp only [process_documents, List.foldl_append, List.foldl_cons, ← hs, ← hs']
  have hbody : s' = { s with
      docs := repo_update (repo_update s.docs doc_id (mark_processing document)) doc_id
        (mark_failed (mark_processing document) msg),
      failed_documents := s.failed_documents + 1,
      provider_calls := s.provider_calls + pipe_provider_calls
        (pipeline doc_id (mark_processing document)) } := by
    rw [hs']
    simp only [process_one, hget]
    rw [if_neg hc, if_neg hp]
    rcases hpipe : pipeline doc_id (mark_processing document) with m | m | m | n <;>
      rw [hpipe] at hraise <;> simp only [raised_message, Option.some.injEq] at hraise
    · subst hraise; simp [pipe_provider_calls]
    · subst hraise; simp [pipe_provider_calls]
    · subst hraise; simp [pipe_provider_calls]
    · simp at hraise
  refine ⟨?_, by rw [hbody], by rw [hbody], by rw [hbody], hcont⟩
  rw [hbody]
  show repo_get (repo_update (repo_update s.docs doc_id (mark_processing document)) doc_id
      (mark_failed (mark_processing document) msg)) doc_id = _
  have h1 := repo_get_update_self (w := mark_processing document) hget
  have h2 := repo_get_update_self (w := mark_failed (mark_processing document) msg) h1
  rw [h2]
  rfl

/-- Closed witness for C2: a one-document batch whose generation raises. -/
theorem c2_failure_isolation_witness :
    repo_get (process_one demoRaisePipe 7 { docs := [(1, uploadedDoc)] } 1).docs 1 =
      some { uploadedDoc with status := .failed, error_message := some "boom".toList } ∧
    (process_one demoRaisePipe 7 { docs := [(1, uploadedDoc)] } 1).failed_documents =
      ({ docs := [(1, uploadedDoc)] } : ProcState).failed_documents + 1 ∧
    (process_one demoRaisePipe 7 { docs := [(1, uploadedDoc)] } 1).successful_documents =
      ({ docs := [(1, uploadedDoc)] } : ProcState).successful_documents ∧
    (process_one demoRaisePipe 7 { docs := [(1, uploadedDoc)] } 1).total_cards =
      ({ docs := [(1, uploadedDoc)] } : ProcState).total_cards ∧
    (process_documents demoRaisePipe 7 ([] ++ 1 :: []) [(1, uploadedDoc)]).1 =
      List.foldl (process_one demoRaisePipe 7)
        (process_one demoRaisePipe 7 { docs := [(1, uploadedDoc)] } 1) [] :=
  c2_failure_isolation demoRaisePipe 7 [(1, uploadedDoc)] [] [] 1 uploadedDoc
    "boom".toList { docs := [(1, uploadedDoc)] }
    (process_one demoRaisePipe 7 { docs := [(1, uploadedDoc)] } 1)
    rfl rfl (by decide) (by decide) (by decide) (by decide)

/-- C10.  Counting of skipped and missing documents: a PROCESSING document
leaves the state untouched (counted in neither bucket), a missing record
counts as failed, and consequently a batch can report strictly fewer
counted documents than requested ids (shown on a concrete one-id batch
whose document is PROCESSING). -/
theorem c10_skip_and_missing_counting (pipeline : Nat → Document → PipeResult)
    (deck_id : Nat) :
    (∀ (s : ProcState) (doc_id : Nat) (document : Document),
      repo_get s.docs doc_id = some document → document.status = .processing →
      process_one pipeline deck_id s doc_id = s) ∧
    (∀ (s : ProcState) (doc_id : Nat),
      repo_get s.docs doc_id = none →
      process_one pipeline deck_id s doc_id =
        { s with failed_documents := s.failed_documents + 1 }) ∧
    (process_documents demoPipe 7 [1] [(1, procDoc)]).2.successful_documents +
        (process_documents demoPipe 7 [1] [(1, procDoc)]).2.failed_documents <
      [1].length := by
  refine ⟨?_, ?_, by decide⟩
  · intro s doc_id document hget hstatus
    simp only [process_one, hget]
    rw [if_neg (by simp [hstatus]), if_pos hstatus]
  · intro s doc_id hget
    simp only [process_one, hget]

/-- Closed witness for C10: both counting rules evaluated concretely. -/
theorem c10_skip_and_missing_counting_witness :
    process_one demoPipe 7 { docs := [(1, procDoc)] } 1 = { docs := [(1, procDoc)] } ∧
    process_one demoPipe 7 { docs := [(1, procDoc)] } 2 =
      { docs := [(1, procDoc)], failed_documents := 1 } := by
  have h := c10_skip_and_missing_counting demoPipe 7
  exact ⟨h.1 { docs := [(1, procDoc)] } 1 procDoc (by decide) (by decide),
    h.2.1 { docs := [(1, procDoc)] } 2 (by decide)⟩

/- Extraction Engine: `DocumentExtractor._extract_pdf`
(`document_extractor.py`, lines 117-176). -/

/-- The outcome of `page.extract_text()` for one physical page: the
extracted text (a `None` result is already coerced to `""` by
`page.extract_text() or ""`), or a raised exception. -/
inductive PageOutcome where
  | ok (text : PyStr)
  | raised (msg : PyStr)
deriving DecidableEq, Repr

/-- The page loop of `_extract_pdf`, `pages` accumulator: a non-blank page
is appended as `(page_num, text)`; a blank page is skipped entirely; a page
whose extraction raises is appended as `(page_num, "")` with a logged
warning instead of aborting. -/
def pdf_pages : Nat → List PageOutcome → List (Nat × PyStr)
  | _, [] => []
  | page_num, .ok text :: rest =>
    if pstrip text ≠ [] then (page_num, text) :: pdf_pages (page_num + 1) rest
    else pdf_pages (page_num + 1) rest
  | page_num, .raised _ :: rest => (page_num, []) :: pdf_pages (page_num + 1) rest

/-- The `all_text` accumulator of the same loop (blank and failed pages add
nothing). -/
def pdf_all_text : List PageOutcome → List PyStr
  | [] => []
  | .ok text :: rest =>
    if pstrip text ≠ [] then text :: pdf_all_text rest else pdf_all_text rest
  | .raised _ :: rest => pdf_all_text rest

/-- `ExtractionResult` of `document_extractor.py`; of the metadata only the
physical page count is kept. -/
structure ExtractionResult where
  text : PyStr
  pages : List (Nat × PyStr)
  page_count : Nat
deriving DecidableEq, Repr

/-- `DocumentExtractor._extract_pdf` as a function of the per-page
extraction outcomes; `text` is the non-blank page texts joined with
`"\n\n"`. -/
def extract_pdf (outcomes : List PageOutcome) : ExtractionResult :=
  ⟨List.intercalate nn (pdf_all_text outcomes), pdf_pages 1 outcomes, outcomes.length⟩

/-- Whether one physical page contributes a unit: it raised, or its text is
non-blank. -/
def page_keeps : PageOutcome → Bool
  | .ok text => !(pstrip text).isEmpty
  | .raised _ => true

theorem pdf_pages_length (outcomes : List PageOutcome) :
    ∀ n, (pdf_pages n outcomes).length = (outcomes.filter page_keeps).length := by
  induction outcomes with
  | nil => intro n; rfl
  | cons o rest ih =>
    intro n
    cases o with
    | ok text =>
      by_cases h : pstrip text ≠ []
      · rw [pdf_pages]
        rw [if_pos h]
        have hk : page_keeps (.ok text) = true := by
          simp [page_keeps, List.isEmpty_iff, h]
        simp [List.filter_cons, hk, ih]
      · rw [pdf_pages, if_neg h]
        have hk : page_keeps (.ok text) = false := by
          simp only [ne_eq, not_not] at h
          simp [page_keeps, List.isEmpty_iff, h]
        simp [List.filter_cons, hk, ih]
    | raised msg =>
      rw [pdf_pages]
      simp [List.filter_cons, page_keeps, ih]

theorem pdf_pages_raised_mem (outcomes : List PageOutcome) :
    ∀ (n i : Nat) (msg : PyStr), outcomes[i]? = some (.raised msg) →
      (n + i, ([] : PyStr)) ∈ pdf_pages n outcomes := by
  induction outcomes with
  | nil => intro n i msg h; simp at h
  | cons o rest ih =>
    intro n i msg h
    cases i with
    | zero =>
      simp only [List.getElem?_cons_zero, Option.some.injEq] at h
      subst h
      rw [pdf_pages]
      simp
    | succ i =>
      simp only [List.getElem?_cons_succ] at h
      have hmem := ih (n + 1) i msg h
      have harith : n + (i + 1) = n + 1 + i := by omega
      rw [harith]
      cases o with
      | ok text =>
        rw [pdf_pages]
        by_cases hb : pstrip text ≠ []
        · rw [if_pos hb]; exact List.mem_cons_of_mem _ hmem
        · rw [if_neg hb]; exact hmem
      | raised m =>
        rw [pdf_pages]
        exact List.mem_cons_of_mem _ hmem

/-- C8 counterexample.  A one-page document whose page extracts successfully
to empty text yields zero units, not one unit per physical page: blank but
readable pages are silently dropped. -/
theorem c8_pdf_units_counterexample :
    [PageOutcome.ok []].length = 1 ∧
    (extract_pdf [PageOutcome.ok []]).pages.length = 0 := by
  constructor
  · rfl
  · rfl

/-- C8 (amended).  `_extract_pdf` yields exactly one unit per physical page
that either raised (an empty-text unit, extraction not aborted) or produced
non-blank text; blank-but-readable pages yield no unit, so the unit count
can be less than the physical page count. -/
theorem c8_pdf_units_amended (outcomes : List PageOutcome) :
    (extract_pdf outcomes).pages.length = (outcomes.filter page_keeps).length ∧
    (extract_pdf outcomes).pages.length ≤ outcomes.length ∧
    (∀ (i : Nat) (msg : PyStr), outcomes[i]? = some (.raised msg) →
      (i + 1, ([] : PyStr)) ∈ (extract_pdf outcomes).pages) := by
  refine ⟨pdf_pages_length outcomes 1, ?_, ?_⟩
  · show (pdf_pages 1 outcomes).length ≤ outcomes.length
    rw [pdf_pages_length outcomes 1]
    exact List.length_filter_le _ _
  · intro i msg h
    have hmem := pdf_pages_raised_mem outcomes 1 i msg h
    have harith : 1 + i = i + 1 := by omega
    rw [harith] at hmem
    exact hmem

/-- Closed witness for C8 (amended): a raising first page and a readable
second page. -/
theorem c8_pdf_units_amended_witness :
    (extract_pdf [PageOutcome.raised "boom".toList, PageOutcome.ok "hi".toList]).pages.length =
      ([PageOutcome.raised "boom".toList, PageOutcome.ok "hi".toList].filter
        page_keeps).length ∧
    (1, ([] : PyStr)) ∈
      (extract_pdf [PageOutcome.raised "boom".toList, PageOutcome.ok "hi".toList]).pages := by
  have h := c8_pdf_units_amended [PageOutcome.raised "boom".toList, PageOutcome.ok "hi".toList]
  exact ⟨h.1, h.2.2 0 "boom".toList (by decide)⟩

/- Retry behaviour of provider transport calls: the tenacity decorators on
`OllamaProvider._generate_single` (`ai/ollama_provider.py`, lines 294-299)
and `OpenAIProvider._generate_with_retry` (`ai/openai_provider.py`,
lines 139-144). -/

/-- The Python exception classes relevant to the retry decorators. -/
inductive PyExc where
  | requestException (msg : PyStr)
  | aiProviderError (msg : PyStr)
  | aiValidationError (msg : PyStr)
deriving DecidableEq, Repr

/-- `retry_if_exception_type((requests.exceptions.RequestException,))`, the
predicate configured on the Ollama decorator. -/
def is_request_exc : PyExc → Bool
  | .requestException _ => true
  | _ => false

/-- tenacity `retry(stop=stop_after_attempt(n), retry=pred, reraise=True)`:
run the body; on an exception, retry while the predicate holds and attempts
remain, otherwise re-raise the original exception.  Returns the outcome and
the number of attempts made.  The second argument of the recursion is the
number of attempts still allowed including the current one. -/
def tenacity_run {α : Type} (should_retry : PyExc → Bool)
    (body : Nat → Except PyExc α) : Nat → Nat → Except PyExc α × Nat
  | attempt, 0 => (body attempt, attempt)
  | attempt, remaining + 1 =>
    match body attempt with
    | .ok a => (.ok a, attempt)
    | .error e =>
      if remaining = 0 then (.error e, attempt)
      else if should_retry e then tenacity_run should_retry body (attempt + 1) remaining
      else (.error e, attempt)

/-- A decorated call starting at attempt 1. -/
def tenacity_retry {α : Type} (should_retry : PyExc → Bool) (max_attempts : Nat)
    (body : Nat → Except PyExc α) : Except PyExc α × Nat :=
  tenacity_run should_retry body 1 max_attempts

/-- What the transport produced on one attempt, before the provider's own
exception handling. -/
inductive ProviderResponse where
  | transportError (msg : PyStr)
  | badJson (msg : PyStr)
  | cards (cs : List Candidate)
deriving Repr

/-- The body of `OllamaProvider._generate_single` for one attempt: a
`RequestException` from `requests.post` is caught inside the function and
re-raised as `AIProviderError`, so the decorator never observes a
`RequestException`; JSON-level and validation failures raise
`AIValidationError` via `parse_flashcard_response`. -/
def ollama_attempt (document_name : PyStr) (resp : ProviderResponse) :
    Except PyExc (List FlashcardData) :=
  match resp with
  | .transportError msg =>
    .error (.aiProviderError ("Ollama API request failed: ".toList ++ msg))
  | .badJson msg => .error (.aiValidationError msg)
  | .cards cs =>
    match parse_flashcard_response document_name cs with
    | .error msg => .error (.aiValidationError msg)
    | .ok flashcards => .ok flashcards

/-- `OllamaProvider._generate_single` under its decorator
`retry(stop=stop_after_attempt(3), retry=retry_if_exception_type((RequestException,)), reraise=True)`. -/
def ollama_generate_single (document_name : PyStr)
    (responses : Nat → ProviderResponse) : Except PyExc (List FlashcardData) × Nat :=
  tenacity_retry is_request_exc 3
    (fun attempt => ollama_attempt document_name (responses attempt))

/-- The body of `OpenAIProvider._generate_with_retry` for one attempt: an
`OpenAIError` is caught and re-raised as `AIProviderError`; parse and
validation failures raise `AIValidationError` from `_parse_response`. -/
def openai_attempt (document_name : PyStr) (resp : ProviderResponse) :
    Except PyExc (List FlashcardData) :=
  match resp with
  | .transportError msg =>
    .error (.aiProviderError ("OpenAI API error: ".toList ++ msg))
  | .badJson msg => .error (.aiValidationError msg)
  | .cards cs =>
    match parse_flashcard_response document_name cs with
    | .error msg => .error (.aiValidationError msg)
    | .ok flashcards => .ok flashcards

/-- `OpenAIProvider._generate_with_retry` under its decorator
`retry(stop=stop_after_attempt(3), retry=retry_if_exception_type((Exception,)), reraise=True)`:
every exception class is retried. -/
def openai_generate_with_retry (document_name : PyStr)
    (responses : Nat → ProviderResponse) : Except PyExc (List FlashcardData) × Nat :=
  tenacity_retry (fun _ => true) 3
    (fun attempt => openai_attempt document_name (responses attempt))

/-- C9.  Evaluation of the retry machinery at the failing inputs, exhibiting
both divergences from the claimed policy: a persistent Ollama transport
error surfaces after exactly one attempt (the in-function conversion of
`RequestException` to `AIProviderError` defeats the decorator's retry
predicate, so transient transport errors are never retried), while a
persistent OpenAI validation failure is attempted three times (the
`(Exception,)` predicate retries `AIValidationError` instead of letting it
surface immediately). -/
theorem c9_retry_policy_divergence :
    ollama_generate_single "doc.pdf".toList
        (fun _ => .transportError "connection refused".toList) =
      (.error (.aiProviderError ("Ollama API request failed: ".toList ++
        "connection refused".toList)), 1) ∧
    openai_generate_with_retry "doc.pdf".toList
        (fun _ => .badJson "Failed to parse JSON response".toList) =
      (.error (.aiValidationError "Failed to parse JSON response".toList), 3) := by
  constructor
  · rfl
  · rfl

end OpenDeck
